import Mathlib

/-!
Verification development for the story-creation experiment app
(`models.py`, `service.py`, `init_db.py`, `pages/2_Experiment_Page.py`).

The embedding is shallow:
* `Decimal` money values and `content_ip_rate` multipliers become `ℚ`
  (the source computes with `decimal.Decimal`, exactly).
* a SQLAlchemy session scoped to one participant becomes an explicit
  `List Asset` (the store rows of that participant, in insertion order)
  together with a `ℕ` counter that stands for the
  timestamp-plus-random-suffix asset-id generator of
  `UserAssetService.create_asset` (only uniqueness and monotonicity of
  those ids matter, per the design notes of the spec);
* the Streamlit session state of `2_Experiment_Page.py` becomes the
  `Session` structure (local asset mirror, pending transaction queue);
* the JSON `asset_metadata` blob is display-only in every flow treated
  here and is not carried;
* `re.split(r'[.!?]+', s)` followed by discarding whitespace-only
  fragments is realised by splitting on each single terminator and then
  discarding the empty fragments, which yields the same sentence list.
-/

namespace Novelty

/-- Money: the source stores DECIMAL(10,2) and computes with `Decimal`. -/
abbrev Money := ℚ

/-- One vocabulary entry of a round configuration (`init_db.py` JSON). -/
structure VocabEntry where
  id : String
  word : String
  price : Money
  deriving DecidableEq

/-- One pre-written story of a combination (`init_db.py` JSON). -/
structure BundledStory where
  id : String
  content : String
  rating : ℚ
  content_ip_rate : ℚ
  deriving DecidableEq

/-- One purchasable word combination of a round (`init_db.py` JSON). -/
structure Combination where
  id : String
  vocab_ids : List String
  stories : List BundledStory
  deriving DecidableEq

/-- Round configuration (`game_rounds.parameters` JSON). -/
structure RoundConfig where
  vocabularies : List VocabEntry
  combinations : List Combination
  initial_balance : Money
  deriving DecidableEq

/-- Player row (`models.py`, class `Player`). -/
structure Player where
  player_id : String
  total_earnings : Money
  current_round : ℕ
  is_active : Bool
  deriving DecidableEq

/-- User asset row (`models.py`, class `UserAsset`), restricted to the
fields the flows below read or write.  `used_vocabularies` is the decoded
JSON list (`None` becomes `[]`, matching every truthiness test on it). -/
structure Asset where
  asset_id : ℕ
  player_id : String
  round_id : ℕ
  asset_type : String
  content : String
  status : String
  used_vocabularies : List String
  deriving DecidableEq

/-- The value set of the `status` Enum column of `user_assets`
(`models.py` line 80, identical in `init_db.py`). -/
def statusEnum : List String :=
  ["active", "archived", "submitted", "approved", "rejected"]

/-- Boolean membership (Python `in` on a set or list). -/
def memB {α : Type} [BEq α] (x : α) (l : List α) : Bool :=
  l.any (fun y => y == x)

/-- `UserAssetService.create_asset`: appends a fresh row with
`status='active'`; the id counter models the generated unique asset id. -/
def create_asset (db : List Asset) (nextId : ℕ) (pid : String) (rid : ℕ)
    (asset_type : String) (content : String) (vocab_ids : List String) :
    List Asset :=
  db ++ [⟨nextId, pid, rid, asset_type, content, "active", vocab_ids⟩]

/-- `UserAssetService.update_asset_status` as `service.py` performs it:
set the `status` attribute of the row with the given id. -/
def update_asset_status (db : List Asset) (id : ℕ) (status : String) :
    List Asset :=
  db.map (fun a => if a.asset_id == id then { a with status := status } else a)

/-- `UserAssetService.get_player_vocabularies`: union of the decoded
`used_vocabularies` of all of the participant rows (a Python set; here a
list used only through membership). -/
def get_player_vocabularies (db : List Asset) : List String :=
  (db.map (fun a => a.used_vocabularies)).flatten

/-- `UserAssetService.has_purchased_story`: some `story_template` row of
the participant carries exactly this content. -/
def has_purchased_story (db : List Asset) (story_content : String) : Bool :=
  db.any (fun a => a.content == story_content && a.asset_type == "story_template")

/-- `PlayerService.create_player`: the initial balance is the hard-coded
constant `100` (`service.py` line 30), not a value read from the round
configuration. -/
def create_player (pid : String) : Player :=
  ⟨pid, 100, 1, true⟩

/-- Lazy creation on first access (`get_player_info` of
`2_Experiment_Page.py`): return the stored player, creating one when the
id is unknown. -/
def get_player_info (players : List Player) (pid : String) :
    Player × List Player :=
  match players.find? (fun p => p.player_id == pid) with
  | some p => (p, players)
  | none => (create_player pid, players ++ [create_player pid])

/-- Total bundle price as both `purchase_story_content` and
`purchase_combination` compute it (`service.py` lines 188-197, 272-278):
iterate over `vocab_ids`, look each id up with `next(..., None)`, and
silently skip ids that do not resolve in the catalog. -/
def totalVocabPrice (vocabs : List VocabEntry) : List String → Money
  | [] => 0
  | vid :: rest =>
    (match vocabs.find? (fun v => v.id == vid) with
     | some v => v.price
     | none => 0) + totalVocabPrice vocabs rest

/-- Price of the already-owned part of a bundle (`service.py`
lines 190-197): among the resolvable ids, sum the prices of those in the
participant vocabulary set. -/
def ownedVocabPrice (vocabs : List VocabEntry) (owned : List String) :
    List String → Money
  | [] => 0
  | vid :: rest =>
    (match vocabs.find? (fun v => v.id == vid) with
     | some v => if memB vid owned then v.price else 0
     | none => 0) + ownedVocabPrice vocabs owned rest

/-- Sum of the prices of the bundle words the participant does not own
yet (the spec quantity `computeMissingVocabPrice`; the source obtains it
as `total_vocab_price - owned_vocab_price`). -/
def computeMissingVocabPrice (vocabs : List VocabEntry) (owned : List String) :
    List String → Money
  | [] => 0
  | vid :: rest =>
    (match vocabs.find? (fun v => v.id == vid) with
     | some v => if memB vid owned then 0 else v.price
     | none => 0) + computeMissingVocabPrice vocabs owned rest

/-- Story content markup (`service.py` line 212): the bundle price times
`content_ip_rate - 1`, with no clamping of any kind. -/
def computeStoryContentPrice (bundlePrice rate : Money) : Money :=
  bundlePrice * (rate - 1)

/-- Actual charge of a story-content purchase (`service.py`
lines 215-224): content markup plus missing-vocabulary price, except that
with no missing vocabulary only the markup is charged. -/
def computeActualStoryPrice (contentPrice missingPrice : Money) : Money :=
  if missingPrice = 0 then contentPrice else contentPrice + missingPrice

/-- Modelled from the spec: `computeBundlePrice` of §4.1 is required to
fail with a `ReferenceError` when any `vocabIds` entry is absent from the
catalog.  No function of the repository fails that way (the source
silently skips unresolved ids); this definition follows the spec words so
the two behaviours can be compared. -/
def computeBundlePriceSpec (vocabs : List VocabEntry) :
    List String → Except String Money
  | [] => .ok 0
  | vid :: rest =>
    match vocabs.find? (fun v => v.id == vid) with
    | none => .error ("ReferenceError: " ++ vid)
    | some v =>
      match computeBundlePriceSpec vocabs rest with
      | .ok q => .ok (v.price + q)
      | .error e => .error e

/-- The charge `purchase_story_content` computes for a given store state,
combination and story (`service.py` lines 186-227). -/
def storyChargeFor (cfg : RoundConfig) (db : List Asset) (combo : Combination)
    (story : BundledStory) : Money :=
  let owned := get_player_vocabularies db
  let total := totalVocabPrice cfg.vocabularies combo.vocab_ids
  let ownedP := ownedVocabPrice cfg.vocabularies owned combo.vocab_ids
  computeActualStoryPrice (computeStoryContentPrice total story.content_ip_rate)
    (total - ownedP)

/-- `GameRoundService.purchase_story_content` (`service.py`
lines 173-263): resolve the combination and story, price the purchase,
refuse re-purchase of the same content and insufficient balance, then
deduct the charge and persist the `story_template` asset.  `none` models
`return False` (the in-range fallback of lines 202-207 is dead code under
the preceding index guard and is not repeated here). -/
def purchase_story_content (cfg : RoundConfig) (pid : String) (rid : ℕ)
    (db : List Asset) (nextId : ℕ) (balance : Money)
    (combination_id : String) (story_index : ℕ) :
    Option (List Asset × ℕ × Money) :=
  match cfg.combinations.find? (fun c => c.id == combination_id) with
  | none => none
  | some combo =>
    if h : story_index < combo.stories.length then
      let story := combo.stories.get ⟨story_index, h⟩
      let charge := storyChargeFor cfg db combo story
      if has_purchased_story db story.content then none
      else if balance < charge then none
      else some (create_asset db nextId pid rid "story_template" story.content
        combo.vocab_ids, nextId + 1, balance - charge)
    else none

/-- The round-1 configuration inserted by `init_db.py` (verbatim values;
rates written as exact rationals). -/
def round1Config : RoundConfig where
  vocabularies :=
    [⟨"va1", "quantum", 10⟩, ⟨"va2", "space-time", 10⟩,
     ⟨"va3", "consciousness", 15⟩, ⟨"va4", "matrix", 15⟩,
     ⟨"va5", "virtual", 20⟩, ⟨"va6", "reality", 20⟩,
     ⟨"va7", "data", 25⟩, ⟨"va8", "soul", 25⟩,
     ⟨"va9", "consciousness matrix", 50⟩, ⟨"va10", "quantum reality", 50⟩]
  combinations :=
    [⟨"ca1", ["va1", "va2"],
      [⟨"sa1",
        "In the quantum realm, particles behave in mysterious ways. Space-time bends and twists around massive objects.",
        4, 3 / 2⟩,
       ⟨"sa2",
        "2 - In the quantum realm, particles behave in mysterious ways. Space-time bends and twists around massive objects.",
        41 / 10, 8 / 5⟩]⟩,
     ⟨"ca2", ["va3", "va4"],
      [⟨"sa2",
        "Human consciousness remains one of the greatest mysteries of science. The matrix of reality is woven from the fabric of our perceptions.",
        21 / 5, 8 / 5⟩]⟩,
     ⟨"ca3", ["va5", "va6"],
      [⟨"sa3",
        "The virtual world offers endless possibilities for exploration. Reality becomes fluid when we step into the digital realm.",
        43 / 10, 17 / 10⟩]⟩,
     ⟨"ca4", ["va7", "va8"],
      [⟨"sa4",
        "Data flows like rivers through the digital landscape. The soul finds new ways to express itself in the age of technology.",
        9 / 2, 9 / 5⟩]⟩,
     ⟨"ca5", ["va9", "va10"],
      [⟨"sa5",
        "The quantum consciousness reveals the interconnectedness of all things. The matrix of existence is woven from the threads of probability.",
        5, 2⟩]⟩]
  initial_balance := 100

/-- Character-level test used to realise Python `needle in hay` at the
start of `hay` (the remaining functions never call core `String`
primitives whose evaluation is opaque to the kernel). -/
def charsStartWith : List Char → List Char → Bool
  | [], _ => true
  | _ :: _, [] => false
  | a :: as, b :: bs => a == b && charsStartWith as bs

/-- Python substring containment `needle in hay` on character lists. -/
def charsContain (needle : List Char) : List Char → Bool
  | [] => needle.isEmpty
  | c :: rest => charsStartWith needle (c :: rest) || charsContain needle rest

/-- The per-word test of the validator (`service.py` line 609):
`word.lower() in sentence.lower()`. -/
def wordInSentence (sentence word : String) : Bool :=
  charsContain (word.data.map Char.toLower) (sentence.data.map Char.toLower)

/-- Split a character list at every character satisfying `p`, keeping
empty fragments (like `re.split` on a single-character class). -/
def splitChars (p : Char → Bool) : List Char → List (List Char)
  | [] => [[]]
  | c :: rest =>
    if p c then [] :: splitChars p rest
    else
      match splitChars p rest with
      | [] => [[c]]
      | g :: gs => (c :: g) :: gs

/-- Sentence terminator class `[.!?]` of the validator. -/
def isTerminator (c : Char) : Bool :=
  c == '.' || c == '!' || c == '?'

/-- Python `str.strip` on a character list. -/
def stripChars (l : List Char) : List Char :=
  ((l.dropWhile Char.isWhitespace).reverse.dropWhile Char.isWhitespace).reverse

/-- Sentence splitting of the validator (`service.py` line 599):
split on runs of `[.!?]`, strip each fragment, drop the empty ones
(splitting at every single terminator and then dropping empties yields
exactly the fragments of splitting on runs). -/
def splitSentences (content : String) : List String :=
  ((splitChars isTerminator content.data).map
    (fun l => String.mk (stripChars l))).filter (fun s => s != "")

/-- All owned words matched inside one sentence (`service.py`
lines 606-610): filter the owned list by case-insensitive containment. -/
def sentenceMatches (owned : List String) (sentence : String) : List String :=
  owned.filter (fun w => wordInSentence sentence w)

/-- Structured outcome of `StoryValidationService.validate_story`; each
constructor is one `return` site of the source, in source order. -/
inductive VOutcome where
  | noMatch (i : ℕ)
  | multiMatch (i : ℕ) (ms : List String)
  | reused (w : String)
  | tooFew (ownedCount sentenceCount : ℕ)
  | tooMany (ownedCount sentenceCount : ℕ)
  | unusedWords (ws : List String)
  | passed (matchesMap : List (ℕ × String))
  deriving DecidableEq

/-- The per-sentence loop of the validator (`service.py` lines 605-634):
walk the sentences in order, failing at the first sentence with zero
matches, with several matches, or whose single match was consumed by an
earlier sentence; on success return the consumed words and the
sentence-index-to-word pairs. -/
def checkSentences (owned : List String) :
    List String → ℕ → List String → List (ℕ × String) →
    Except VOutcome (List String × List (ℕ × String))
  | [], _, used, acc => .ok (used, acc)
  | s :: rest, i, used, acc =>
    match sentenceMatches owned s with
    | [] => .error (.noMatch i)
    | [w] =>
      if memB w used then .error (.reused w)
      else checkSentences owned rest (i + 1) (used ++ [w]) (acc ++ [(i, w)])
    | m1 :: m2 :: ms => .error (.multiMatch i (m1 :: m2 :: ms))

/-- `StoryValidationService.validate_story` reduced to its structured
outcome (`service.py` lines 577-662): per-sentence loop, then the
sentence-count check, then the unused-word check. -/
def validateOutcome (content : String) (owned : List String) : VOutcome :=
  let sentences := splitSentences content
  match checkSentences owned sentences 0 [] [] with
  | .error o => o
  | .ok (used, acc) =>
    if sentences.length ≠ owned.length then
      if sentences.length < owned.length then
        .tooFew owned.length sentences.length
      else .tooMany owned.length sentences.length
    else
      if (owned.filter (fun w => !memB w used)) ≠ [] then
        .unusedWords ((owned.filter (fun w => !memB w used)).dedup)
      else .passed acc

/-- The exact message string of each outcome (`service.py` return
values; the unused-word set of the source is joined in an unspecified
set order, rendered here from the deduplicated remainder list). -/
def msgOf : VOutcome → String
  | .noMatch i =>
    "Sentence " ++ toString (i + 1) ++
      " does not contain any purchased words or phrases."
  | .multiMatch i ms =>
    "Sentence " ++ toString (i + 1) ++ " contains multiple words or phrases: " ++
      String.intercalate ", " ms ++
      ". Each sentence should contain only one word or phrase."
  | .reused w =>
    "Word or phrase \x27" ++ w ++
      "\x27 is used in multiple sentences. Each word or phrase should be used in only one sentence."
  | .tooFew ownedCount sentenceCount =>
    "You own " ++ toString ownedCount ++
      " words or phrases, but there are only " ++ toString sentenceCount ++
      " sentences. Each word or phrase must be used in a sentence."
  | .tooMany ownedCount sentenceCount =>
    "You own " ++ toString ownedCount ++
      " words or phrases, but there are " ++ toString sentenceCount ++
      " sentences. Each sentence must use exactly one word or phrase."
  | .unusedWords ws =>
    "The following words or phrases are not used: " ++
      String.intercalate ", " ws ++ ". All words or phrases must be used."
  | .passed _ =>
    "Story check passed! Each sentence uses one word or phrase, and all words or phrases are used."

/-- Result dictionary of the validator; `matches` is present (non-empty)
only on success, as in the source. -/
structure VResult where
  valid : Bool
  message : String
  matchesMap : List (ℕ × String)
  deriving DecidableEq

/-- `StoryValidationService.validate_story`: structured outcome rendered
to the result dictionary of the source. -/
def validate_story (content : String) (owned : List String) : VResult :=
  match validateOutcome content owned with
  | .passed acc => ⟨true, msgOf (.passed acc), acc⟩
  | o => ⟨false, msgOf o, []⟩

/-- Recogniser for the sentences-in-excess outcome (`service.py`
lines 643-647). -/
def isTooManyOutcome : VOutcome → Bool
  | .tooMany _ _ => true
  | _ => false

/-- The per-sentence loop only ever fails with one of its three own
outcomes. -/
def perSentenceOutcome : VOutcome → Bool
  | .noMatch _ => true
  | .multiMatch _ _ => true
  | .reused _ => true
  | _ => false

/-- One pending ledger entry of `st.session_state.transaction_history`
(`2_Experiment_Page.py`), restricted to the fields `sync_to_database`
reads; the money amounts of the source records land only in display
metadata and are not carried. -/
inductive Txn where
  | purchase_story (combo_id story_id : String)
  | purchase_combination (combo_id : String)
  | draw_word (vocab_id : String)
  | save_draft (content : String) (vocab_ids : List String)
  | submit_story (content : String) (vocab_ids : List String) (is_update : Bool)
  deriving DecidableEq

/-- Durable-store state threaded through a flush: the participant rows
plus the id counter of `create_asset`. -/
structure SyncSt where
  db : List Asset
  nextId : ℕ
  deriving DecidableEq

/-- The dedup snapshots `sync_to_database` computes once at flush start
(`2_Experiment_Page.py` lines 426-447). -/
structure ExistingSets where
  story_contents : List String
  vocab_combos : List (List String)
  vocab_ids : List String
  creation_ids : List ℕ
  deriving DecidableEq

/-- Insertion into a list sorted by the `≤` of `String`. -/
def insertSorted (x : String) : List String → List String
  | [] => [x]
  | y :: ys => if x ≤ y then x :: y :: ys else y :: insertSorted x ys

/-- Python `tuple(sorted(ids))`, the dedup key of a vocabulary
combination. -/
def sortIds : List String → List String
  | [] => []
  | x :: xs => insertSorted x (sortIds xs)

/-- Snapshot computation at flush start (`2_Experiment_Page.py`
lines 426-447 and 578-581): story-template contents, sorted vocab-id
tuples of vocabulary assets, all owned vocabulary ids, and the ids of the
`user_creation` rows. -/
def mkExisting (db : List Asset) : ExistingSets where
  story_contents :=
    (db.filter (fun a => a.asset_type == "story_template" && a.content != "")).map
      (fun a => a.content)
  vocab_combos :=
    (db.filter
      (fun a => a.asset_type == "vocabulary" && !a.used_vocabularies.isEmpty)).map
      (fun a => sortIds a.used_vocabularies)
  vocab_ids := get_player_vocabularies db
  creation_ids :=
    (db.filter (fun a => a.asset_type == "user_creation")).map
      (fun a => a.asset_id)

/-- Componentwise containment of the flush-start dedup snapshots in
later ones (the `creation_ids` component plays no role in any skip
decision and is not compared). -/
def exSubset (e1 e2 : ExistingSets) : Prop :=
  e1.story_contents ⊆ e2.story_contents ∧
  e1.vocab_combos ⊆ e2.vocab_combos ∧
  e1.vocab_ids ⊆ e2.vocab_ids

/-- `create_asset` lifted to the threaded store state. -/
def createInto (pid : String) (rid : ℕ) (s : SyncSt)
    (asset_type : String) (content : String) (vocab_ids : List String) :
    SyncSt :=
  ⟨create_asset s.db s.nextId pid rid asset_type content vocab_ids,
   s.nextId + 1⟩

/-- Status updates constrained by the `status` Enum of the `user_assets`
schema (`models.py` line 80, `init_db.py` line 50): a value outside the
declared Enum cannot be stored; the write raises instead (SQLAlchemy
rejects values not among the Enum members at bind time, and the
`user_assets` ENUM column declares the same five members). -/
def update_asset_status_checked (db : List Asset) (id : ℕ) (status : String) :
    Option (List Asset) :=
  if memB status statusEnum then some (update_asset_status db id status)
  else none

/-- Mark the listed `user_creation` rows `inactive`, one checked write at
a time (`2_Experiment_Page.py` lines 583-590); the first rejected write
raises, leaving the store as it was. -/
def markCreationsInactive (db : List Asset) : List ℕ → Option (List Asset)
  | [] => some db
  | id :: rest =>
    match update_asset_status_checked db id "inactive" with
    | some db2 => markCreationsInactive db2 rest
    | none => none

/-- One iteration of the flush loop of `sync_to_database`
(`2_Experiment_Page.py` lines 450-610).  The result is `none` when the
iteration raises (the `inactive` write rejected by the status Enum);
otherwise it is the new store state together with the processed flag
(`true` exactly when the source appends the entry to
`processed_transactions`).  All dedup tests consult the snapshots taken
at flush start; the source never refreshes them inside the loop. -/
def processTxn (cfg : RoundConfig) (pid : String) (rid : ℕ)
    (ex : ExistingSets) (s : SyncSt) : Txn → Option (SyncSt × Bool)
  | .purchase_story combo_id story_id =>
    match cfg.combinations.find? (fun c => c.id == combo_id) with
    | none => some (s, false)
    | some combo =>
      match combo.stories.find? (fun st => st.id == story_id) with
      | none => some (s, false)
      | some story =>
        if story.content != "" then
          if !memB story.content ex.story_contents then
            some (createInto pid rid s "story_template" story.content
              combo.vocab_ids, true)
          else some (s, false)
        else some (s, false)
  | .purchase_combination combo_id =>
    match cfg.combinations.find? (fun c => c.id == combo_id) with
    | none => some (s, false)
    | some combo =>
      if !memB (sortIds combo.vocab_ids) ex.vocab_combos then
        some (createInto pid rid s "vocabulary" "" combo.vocab_ids, true)
      else some (s, false)
  | .draw_word vocab_id =>
    if vocab_id != "" && !memB vocab_id ex.vocab_ids then
      match cfg.vocabularies.find? (fun v => v.id == vocab_id) with
      | some v =>
        some (createInto pid rid s "vocabulary_draw"
          ("Drawn vocabulary: " ++ v.word) [vocab_id], true)
      | none => some (s, false)
    else some (s, false)
  | .save_draft content vocab_ids =>
    if content != "" then
      some (createInto pid rid s "story_draft" content vocab_ids, true)
    else some (s, false)
  | .submit_story content vocab_ids is_update =>
    if content != "" then
      if is_update then
        match markCreationsInactive s.db ex.creation_ids with
        | some db2 =>
          some (createInto pid rid ⟨db2, s.nextId⟩ "user_creation" content
            vocab_ids, true)
        | none => none
      else
        some (createInto pid rid s "user_creation" content vocab_ids, true)
    else some (s, false)

/-- Decision of `processTxn` in isolation: `true` when the entry changes
nothing and is left in the queue.  The decision reads only the
configuration and the flush-start snapshots, never the evolving store. -/
def txnSkipped (cfg : RoundConfig) (ex : ExistingSets) : Txn → Bool
  | .purchase_story combo_id story_id =>
    match cfg.combinations.find? (fun c => c.id == combo_id) with
    | none => true
    | some combo =>
      match combo.stories.find? (fun st => st.id == story_id) with
      | none => true
      | some story =>
        story.content == "" || memB story.content ex.story_contents
  | .purchase_combination combo_id =>
    match cfg.combinations.find? (fun c => c.id == combo_id) with
    | none => true
    | some combo => memB (sortIds combo.vocab_ids) ex.vocab_combos
  | .draw_word vocab_id =>
    vocab_id == "" || memB vocab_id ex.vocab_ids ||
      (cfg.vocabularies.find? (fun v => v.id == vocab_id)).isNone
  | .save_draft content _ => content == ""
  | .submit_story content _ _ => content == ""

/-- The flush loop over the pending queue: on success, return the final
store state, the entries left pending (the source removes every
processed entry from `transaction_history` afterwards; equal entries
receive equal decisions, so removal by value agrees with this positional
filtering), and `true`.  When an iteration raises, the partial store
state is kept (each `create_asset` commits individually) and the flag is
`false`. -/
def syncLoop (cfg : RoundConfig) (pid : String) (rid : ℕ)
    (ex : ExistingSets) : SyncSt → List Txn → SyncSt × List Txn × Bool
  | s, [] => (s, [], true)
  | s, t :: rest =>
    match processTxn cfg pid rid ex s t with
    | none => (s, [], false)
    | some (s2, processed) =>
      match syncLoop cfg pid rid ex s2 rest with
      | (s3, kept, ok) => (s3, if processed then kept else t :: kept, ok)

/-- `sync_to_database` of `2_Experiment_Page.py` (lines 419-660),
restricted to its asset effects: take the dedup snapshots, run the flush
loop, and on success drop the processed entries from the queue.  On a
raise the `except` handler returns failure before any entry is removed,
so the whole queue is retained and the store keeps exactly the assets
committed before the raise.  The balance write (line 617), the
best-effort draft-retention block (lines 624-640, status-only, wrapped in
its own swallowed `except`) and the UI bookkeeping carry no asset
creations and are not replayed here. -/
def sync_to_database (cfg : RoundConfig) (pid : String) (rid : ℕ)
    (s : SyncSt) (queue : List Txn) : SyncSt × List Txn × Bool :=
  match syncLoop cfg pid rid (mkExisting s.db) s queue with
  | (s2, kept, true) => (s2, kept, true)
  | (s2, _, false) => (s2, queue, false)

/-- A flush hit by an unexpected failure while processing entry `k`
(counting from 0): entries before `k` take full effect, the failing entry
and everything after it are aborted, and — as in `sync_to_database`,
where `processed_transactions` are removed only after the loop — the
exception path leaves the pending queue untouched. -/
def syncLoopAborted (cfg : RoundConfig) (pid : String) (rid : ℕ)
    (ex : ExistingSets) : SyncSt → List Txn → ℕ → SyncSt
  | s, _, 0 => s
  | s, [], _ + 1 => s
  | s, t :: rest, k + 1 =>
    match processTxn cfg pid rid ex s t with
    | none => s
    | some (s2, _) => syncLoopAborted cfg pid rid ex s2 rest k

/-- `sync_to_database` under an unexpected failure at entry `k`: partial
store effects are kept, the queue is returned unchanged. -/
def sync_aborted (cfg : RoundConfig) (pid : String) (rid : ℕ)
    (s : SyncSt) (queue : List Txn) (k : ℕ) : SyncSt × List Txn :=
  (syncLoopAborted cfg pid rid (mkExisting s.db) s queue k, queue)

/-- Session state of `2_Experiment_Page.py`: the local asset mirror
`st.session_state.player_assets`, the pending queue
`st.session_state.transaction_history`, and the durable store. -/
structure Session where
  localAssets : List Asset
  queue : List Txn
  db : List Asset
  nextId : ℕ
  deriving DecidableEq

/-- Drop the first `user_creation` entry of the local mirror
(`2_Experiment_Page.py` lines 396-399: `pop` then `break`). -/
def removeFirstCreation : List Asset → List Asset
  | [] => []
  | a :: rest =>
    if a.asset_type == "user_creation" then rest
    else a :: removeFirstCreation rest

/-- `handle_submit_story` of `2_Experiment_Page.py` (lines 322-417),
restricted to its ledger effects: refuse empty content; append a local
draft asset and a `save_draft` entry; decide `is_update` from the local
mirror; replace the first local `user_creation` by the new submission
(locally carrying status `submitted`); append the `submit_story` entry.
Local rows have no generated id yet (`asset_id` 0 stands for the unset
primary key).  The `content_ip_rate` argument of the source (guarded into
[1.0, 3.0] and recorded only in metadata and in the local objects) plays
no part in the flows verified here and is not carried. -/
def handle_submit_story (pid : String) (rid : ℕ) (s : Session)
    (content : String) (vocab_ids : List String) : Session :=
  if content == "" then s
  else
    let is_update :=
      s.localAssets.any (fun a => a.asset_type == "user_creation")
    let draft : Asset := ⟨0, pid, rid, "story_draft", content, "active", vocab_ids⟩
    let creation : Asset :=
      ⟨0, pid, rid, "user_creation", content, "submitted", vocab_ids⟩
    { s with
      localAssets :=
        removeFirstCreation (s.localAssets ++ [draft]) ++ [creation]
      queue :=
        s.queue ++ [.save_draft content vocab_ids,
          .submit_story content vocab_ids is_update] }

/-- A flush triggered from the session (`sync_to_database` followed by
the refresh of lines 643-644): on success the local mirror is reloaded
from the store and the processed entries leave the queue; on failure the
`except` path returns before the refresh, so the mirror and the queue are
unchanged while the store keeps the partial effects. -/
def session_sync (cfg : RoundConfig) (pid : String) (rid : ℕ)
    (s : Session) : Session × Bool :=
  match sync_to_database cfg pid rid ⟨s.db, s.nextId⟩ s.queue with
  | (st2, kept, true) => (⟨st2.db, kept, st2.db, st2.nextId⟩, true)
  | (st2, _, false) => ({ s with db := st2.db, nextId := st2.nextId }, false)

/-- Submit then flush, the user flow of `render_center_content`
(`2_Experiment_Page.py` lines 1054-1059). -/
def submitAndFlush (cfg : RoundConfig) (pid : String) (rid : ℕ)
    (s : Session) (content : String) (vocab_ids : List String) :
    Session × Bool :=
  session_sync cfg pid rid (handle_submit_story pid rid s content vocab_ids)

/-! ### Helper lemmas -/

theorem memB_iff {α : Type} [BEq α] [LawfulBEq α] (x : α) (l : List α) :
    memB x l = true ↔ x ∈ l := by
  simp [memB, List.any_eq_true, beq_iff_eq]

theorem totalVocabPrice_sub_owned (vs : List VocabEntry) (owned : List String) :
    ∀ ids : List String,
      totalVocabPrice vs ids - ownedVocabPrice vs owned ids =
        computeMissingVocabPrice vs owned ids
  | [] => by
    simp [totalVocabPrice, ownedVocabPrice, computeMissingVocabPrice]
  | vid :: rest => by
    have ih := totalVocabPrice_sub_owned vs owned rest
    simp only [totalVocabPrice, ownedVocabPrice, computeMissingVocabPrice]
    cases h : vs.find? (fun v => v.id == vid) with
    | none => rw [← ih]; ring
    | some v =>
      by_cases hm : memB vid owned = true <;> simp only [hm] <;>
        simp <;> rw [← ih] <;> ring

theorem totalVocabPrice_eq_sum (vs : List VocabEntry) :
    ∀ ids : List String,
      totalVocabPrice vs ids =
        (ids.map (fun vid =>
          match vs.find? (fun v => v.id == vid) with
          | some v => v.price
          | none => 0)).sum
  | [] => by simp [totalVocabPrice]
  | vid :: rest => by
    simp only [totalVocabPrice, List.map, List.sum_cons,
      totalVocabPrice_eq_sum vs rest]

theorem computeBundlePriceSpec_ok (vs : List VocabEntry) :
    ∀ ids : List String,
      (∀ vid ∈ ids, (vs.find? (fun v => v.id == vid)).isSome) →
      computeBundlePriceSpec vs ids = .ok (totalVocabPrice vs ids)
  | [], _ => by simp [computeBundlePriceSpec, totalVocabPrice]
  | vid :: rest, h => by
    have hv : (vs.find? (fun v => v.id == vid)).isSome :=
      h vid (List.mem_cons_self _ _)
    have hrest := computeBundlePriceSpec_ok vs rest
      (fun v hv2 => h v (List.mem_cons_of_mem _ hv2))
    simp only [computeBundlePriceSpec, totalVocabPrice]
    cases hfind : vs.find? (fun v => v.id == vid) with
    | none => rw [hfind] at hv; simp at hv
    | some v => rw [hrest]

theorem sentenceMatches_subset (owned : List String) (s : String) :
    ∀ w ∈ sentenceMatches owned s, w ∈ owned :=
  fun _ hw => (List.mem_filter.mp hw).1

theorem mem_enumFrom_of_mem {w : String} :
    ∀ (l : List String) (n : ℕ), w ∈ l → ∃ i, (i, w) ∈ List.enumFrom n l
  | [], _, h => absurd h (List.not_mem_nil w)
  | x :: xs, n, h => by
    rcases List.mem_cons.mp h with h | h
    · exact ⟨n, by simp [h]⟩
    · obtain ⟨i, hi⟩ := mem_enumFrom_of_mem xs (n + 1) h
      exact ⟨i, by simp [hi]⟩

theorem map_singletons_subset (owned : List String) :
    ∀ (sentences ws : List String),
      sentences.map (fun s => sentenceMatches owned s) =
        ws.map (fun w => [w]) →
      ∀ w ∈ ws, w ∈ owned
  | [], ws, h => by
    intro w hw
    rcases ws with _ | ⟨w0, ws'⟩
    · exact absurd hw (List.not_mem_nil w)
    · simp at h
  | s :: rest, ws, h => by
    rcases ws with _ | ⟨w0, ws'⟩
    · intro w hw; exact absurd hw (List.not_mem_nil w)
    · simp only [List.map, List.cons.injEq] at h
      intro w hw
      rcases List.mem_cons.mp hw with hw | hw
      · subst hw
        exact sentenceMatches_subset owned s w (h.1 ▸ List.mem_singleton_self w)
      · exact map_singletons_subset owned rest ws' h.2 w hw

theorem checkSentences_ok_of (owned : List String) :
    ∀ (sentences ws : List String) (i : ℕ) (used : List String)
      (acc : List (ℕ × String)),
      sentences.map (fun s => sentenceMatches owned s) =
        ws.map (fun w => [w]) →
      (used ++ ws).Nodup →
      checkSentences owned sentences i used acc =
        .ok (used ++ ws, acc ++ List.enumFrom i ws)
  | [], ws, i, used, acc, hmap, hnd => by
    rcases ws with _ | ⟨w0, ws'⟩
    · simp [checkSentences]
    · simp at hmap
  | s :: rest, ws, i, used, acc, hmap, hnd => by
    rcases ws with _ | ⟨w0, ws'⟩
    · simp at hmap
    · simp only [List.map, List.cons.injEq] at hmap
      obtain ⟨hs, hrest⟩ := hmap
      have hw0 : w0 ∉ used := by
        have h1 := List.nodup_append.mp hnd
        exact fun hmem => h1.2.2 hmem (List.mem_cons_self w0 ws')
      have hmemB : memB w0 used ≠ true := fun h => hw0 ((memB_iff w0 used).mp h)
      have hnd2 : ((used ++ [w0]) ++ ws').Nodup := by
        simpa [List.append_assoc] using hnd
      have ih := checkSentences_ok_of owned rest ws' (i + 1) (used ++ [w0])
        (acc ++ [(i, w0)]) hrest hnd2
      simp only [checkSentences, hs]
      rw [if_neg hmemB, ih]
      simp [List.append_assoc, List.enumFrom]

theorem checkSentences_cons_nil (owned : List String) (s : String)
    (rest : List String) (i : ℕ) (used : List String)
    (acc : List (ℕ × String)) (hs : sentenceMatches owned s = []) :
    checkSentences owned (s :: rest) i used acc = .error (.noMatch i) := by
  simp only [checkSentences, hs]

theorem checkSentences_cons_multi (owned : List String) (s : String)
    (rest : List String) (i : ℕ) (used : List String)
    (acc : List (ℕ × String)) (m1 m2 : String) (ms : List String)
    (hs : sentenceMatches owned s = m1 :: m2 :: ms) :
    checkSentences owned (s :: rest) i used acc =
      .error (.multiMatch i (m1 :: m2 :: ms)) := by
  simp only [checkSentences, hs]

theorem checkSentences_cons_one (owned : List String) (s : String)
    (rest : List String) (i : ℕ) (used : List String)
    (acc : List (ℕ × String)) (w : String)
    (hs : sentenceMatches owned s = [w]) :
    checkSentences owned (s :: rest) i used acc =
      if memB w used = true then .error (.reused w)
      else checkSentences owned rest (i + 1) (used ++ [w]) (acc ++ [(i, w)]) := by
  simp only [checkSentences, hs]

theorem checkSentences_ok_inv (owned : List String) :
    ∀ (sentences : List String) (i : ℕ) (used : List String)
      (acc : List (ℕ × String)) (u : List String) (a : List (ℕ × String)),
      checkSentences owned sentences i used acc = .ok (u, a) →
      u.length = used.length + sentences.length ∧
      (used.Nodup → u.Nodup) ∧
      (∀ w ∈ u, w ∈ used ∨ w ∈ owned) ∧
      (∀ s ∈ sentences, sentenceMatches owned s ≠ [])
  | [], i, used, acc, u, a, h => by
    simp only [checkSentences, Except.ok.injEq, Prod.mk.injEq] at h
    refine ⟨?_, ?_, ?_, by simp⟩
    · rw [← h.1]; simp
    · intro hn; rw [← h.1]; exact hn
    · intro w hw; left; rw [← h.1] at hw; exact hw
  | s :: rest, i, used, acc, u, a, h => by
    cases hs : sentenceMatches owned s with
    | nil => rw [checkSentences_cons_nil owned s rest i used acc hs] at h; simp at h
    | cons m1 ms =>
      cases ms with
      | cons m2 ms' =>
        rw [checkSentences_cons_multi owned s rest i used acc m1 m2 ms' hs] at h
        simp at h
      | nil =>
        rw [checkSentences_cons_one owned s rest i used acc m1 hs] at h
        by_cases hmem : memB m1 used = true
        · rw [if_pos hmem] at h; simp at h
        · rw [if_neg hmem] at h
          obtain ⟨h1, h2, h3, h4⟩ :=
            checkSentences_ok_inv owned rest (i + 1) (used ++ [m1])
              (acc ++ [(i, m1)]) u a h
          have hm1 : m1 ∉ used := fun hx => hmem ((memB_iff m1 used).mpr hx)
          refine ⟨?_, ?_, ?_, ?_⟩
          · rw [h1]; simp; omega
          · intro hn
            apply h2
            simp [List.nodup_append, hn, hm1]
          · intro w hw
            rcases h3 w hw with hw2 | hw2
            · rcases List.mem_append.mp hw2 with hw3 | hw3
              · exact Or.inl hw3
              · right
                have : w = m1 := by simpa using hw3
                subst this
                exact sentenceMatches_subset owned s w
                  (hs ▸ List.mem_singleton_self w)
            · exact Or.inr hw2
          · intro t ht
            rcases List.mem_cons.mp ht with ht | ht
            · subst ht; rw [hs]; simp
            · exact h4 t ht

theorem checkSentences_error_shape (owned : List String) :
    ∀ (sentences : List String) (i : ℕ) (used : List String)
      (acc : List (ℕ × String)) (o : VOutcome),
      checkSentences owned sentences i used acc = .error o →
      perSentenceOutcome o = true
  | [], i, used, acc, o, h => by simp [checkSentences] at h
  | s :: rest, i, used, acc, o, h => by
    cases hs : sentenceMatches owned s with
    | nil =>
      rw [checkSentences_cons_nil owned s rest i used acc hs] at h
      simp only [Except.error.injEq] at h
      rw [← h]; rfl
    | cons m1 ms =>
      cases ms with
      | cons m2 ms' =>
        rw [checkSentences_cons_multi owned s rest i used acc m1 m2 ms' hs] at h
        simp only [Except.error.injEq] at h
        rw [← h]; rfl
      | nil =>
        rw [checkSentences_cons_one owned s rest i used acc m1 hs] at h
        by_cases hmem : memB m1 used = true
        · rw [if_pos hmem] at h
          simp only [Except.error.injEq] at h
          rw [← h]; rfl
        · rw [if_neg hmem] at h
          exact checkSentences_error_shape owned rest (i + 1) (used ++ [m1])
            (acc ++ [(i, m1)]) o h

theorem checkSentences_first_noMatch (owned : List String) :
    ∀ (pre ws : List String) (s : String) (post : List String) (i : ℕ)
      (used : List String) (acc : List (ℕ × String)),
      pre.map (fun t => sentenceMatches owned t) = ws.map (fun w => [w]) →
      (used ++ ws).Nodup →
      sentenceMatches owned s = [] →
      checkSentences owned (pre ++ s :: post) i used acc =
        .error (.noMatch (i + pre.length))
  | [], ws, s, post, i, used, acc, hmap, hnd, hs => by
    rcases ws with _ | ⟨w0, ws'⟩
    · simp only [List.nil_append, checkSentences, hs]; rfl
    · simp at hmap
  | t :: pre', ws, s, post, i, used, acc, hmap, hnd, hs => by
    rcases ws with _ | ⟨w0, ws'⟩
    · simp at hmap
    · simp only [List.map, List.cons.injEq] at hmap
      obtain ⟨ht, hrest⟩ := hmap
      have hw0 : w0 ∉ used := by
        have h1 := List.nodup_append.mp hnd
        exact fun hmem => h1.2.2 hmem (List.mem_cons_self w0 ws')
      have hmemB : memB w0 used ≠ true := fun h => hw0 ((memB_iff w0 used).mp h)
      have hnd2 : ((used ++ [w0]) ++ ws').Nodup := by
        simpa [List.append_assoc] using hnd
      have ih := checkSentences_first_noMatch owned pre' ws' s post (i + 1)
        (used ++ [w0]) (acc ++ [(i, w0)]) hrest hnd2 hs
      simp only [List.cons_append, checkSentences, ht]
      simp only [List.append_eq]
      rw [if_neg hmemB, ih]
      congr 2
      simp only [List.length_cons]
      omega

theorem valid_true_iff (content : String) (owned : List String) :
    (validate_story content owned).valid = true ↔
      ∃ acc, validateOutcome content owned = .passed acc := by
  unfold validate_story
  cases h : validateOutcome content owned <;> simp

theorem validate_story_message (content : String) (owned : List String) :
    (validate_story content owned).message =
      msgOf (validateOutcome content owned) := by
  unfold validate_story
  cases h : validateOutcome content owned <;> simp

/-! ### Claim theorems -/

/-- C3.  For every catalog, bundle, story and store state, the charge of
a story-content purchase is `contentPrice + missingVocabPrice`, except
that it is `contentPrice` alone when `missingVocabPrice = 0`, where
`contentPrice = bundlePrice * (contentLicenseRate - 1)` and
`missingVocabPrice` is the sum of the prices of the bundle words not yet
owned; a successful `purchase_story_content` deducts exactly this charge
and persists the story asset carrying the bundle vocabulary.
Concretely, with the shipped round-1 catalog (`va1`, `va2` at price 10,
bundle `ca1`, story `sa1` with rate 3/2), a participant owning neither
word pays 30 and owns both words afterwards, while a participant owning
both words pays 10. -/
theorem story_purchase_pricing :
    (∀ (cfg : RoundConfig) (db : List Asset) (combo : Combination)
      (story : BundledStory),
      storyChargeFor cfg db combo story =
        computeActualStoryPrice
          (computeStoryContentPrice
            (totalVocabPrice cfg.vocabularies combo.vocab_ids)
            story.content_ip_rate)
          (computeMissingVocabPrice cfg.vocabularies
            (get_player_vocabularies db) combo.vocab_ids)) ∧
    (∀ (cfg : RoundConfig) (pid : String) (rid : ℕ) (db : List Asset)
      (nextId : ℕ) (balance : Money) (combination_id : String)
      (story_index : ℕ) (combo : Combination) (story : BundledStory),
      cfg.combinations.find? (fun c => c.id == combination_id) = some combo →
      combo.stories[story_index]? = some story →
      purchase_story_content cfg pid rid db nextId balance combination_id
          story_index = none ∨
      purchase_story_content cfg pid rid db nextId balance combination_id
          story_index =
        some (create_asset db nextId pid rid "story_template" story.content
          combo.vocab_ids, nextId + 1,
          balance - storyChargeFor cfg db combo story)) ∧
    (purchase_story_content round1Config "p1" 1 [] 0 100 "ca1" 0 =
      some ([⟨0, "p1", 1, "story_template",
        "In the quantum realm, particles behave in mysterious ways. Space-time bends and twists around massive objects.",
        "active", ["va1", "va2"]⟩], 1, 70) ∧
      "va1" ∈ get_player_vocabularies
        [⟨0, "p1", 1, "story_template",
          "In the quantum realm, particles behave in mysterious ways. Space-time bends and twists around massive objects.",
          "active", ["va1", "va2"]⟩] ∧
      "va2" ∈ get_player_vocabularies
        [⟨0, "p1", 1, "story_template",
          "In the quantum realm, particles behave in mysterious ways. Space-time bends and twists around massive objects.",
          "active", ["va1", "va2"]⟩]) ∧
    (purchase_story_content round1Config "p1" 1
        [⟨0, "p1", 1, "vocabulary", "", "active", ["va1", "va2"]⟩] 1 100
        "ca1" 0 =
      some ([⟨0, "p1", 1, "vocabulary", "", "active", ["va1", "va2"]⟩,
        ⟨1, "p1", 1, "story_template",
          "In the quantum realm, particles behave in mysterious ways. Space-time bends and twists around massive objects.",
          "active", ["va1", "va2"]⟩], 2, 90)) := by
  refine ⟨?_, ?_, ⟨?_, by decide, by decide⟩, ?_⟩
  · intro cfg db combo story
    simp only [storyChargeFor, computeActualStoryPrice,
      totalVocabPrice_sub_owned]
  · intro cfg pid rid db nextId balance combination_id story_index combo
      story hc hs
    have hlen : story_index < combo.stories.length :=
      (List.getElem?_eq_some.mp hs).1
    have hget : combo.stories.get ⟨story_index, hlen⟩ = story := by
      have h2 := (List.getElem?_eq_some.mp hs).2
      simpa [List.get_eq_getElem] using h2
    simp only [purchase_story_content, hc, hlen, dif_pos, hget]
    by_cases h1 : has_purchased_story db story.content = true
    · left; simp [h1]
    · by_cases h2 : balance < storyChargeFor cfg db combo story
      · left; simp [h1, h2]
      · right; simp [h1, h2]
  · simp +decide [purchase_story_content, round1Config, storyChargeFor,
      totalVocabPrice, ownedVocabPrice, computeStoryContentPrice,
      computeActualStoryPrice, get_player_vocabularies, has_purchased_story,
      create_asset, memB, List.find?]
    norm_num
  · simp +decide [purchase_story_content, round1Config, storyChargeFor,
      totalVocabPrice, ownedVocabPrice, computeStoryContentPrice,
      computeActualStoryPrice, get_player_vocabularies, has_purchased_story,
      create_asset, memB, List.find?]
    norm_num

/-- C3 witness: the success-shape part of `story_purchase_pricing`
applied to the shipped round-1 configuration. -/
theorem story_purchase_pricing_witness :
    purchase_story_content round1Config "p1" 1 [] 0 100 "ca1" 0 = none ∨
    purchase_story_content round1Config "p1" 1 [] 0 100 "ca1" 0 =
      some (create_asset [] 0 "p1" 1 "story_template"
        "In the quantum realm, particles behave in mysterious ways. Space-time bends and twists around massive objects."
        ["va1", "va2"], 0 + 1,
        100 - storyChargeFor round1Config []
          ⟨"ca1", ["va1", "va2"],
           [⟨"sa1",
             "In the quantum realm, particles behave in mysterious ways. Space-time bends and twists around massive objects.",
             4, 3 / 2⟩,
            ⟨"sa2",
             "2 - In the quantum realm, particles behave in mysterious ways. Space-time bends and twists around massive objects.",
             41 / 10, 8 / 5⟩]⟩
          ⟨"sa1",
           "In the quantum realm, particles behave in mysterious ways. Space-time bends and twists around massive objects.",
           4, 3 / 2⟩) :=
  story_purchase_pricing.2.1 round1Config "p1" 1 [] 0 100 "ca1" 0 _ _
    (by rfl) (by rfl)

/-- C4 (amended).  `computeBundlePrice` as implemented returns the sum of
the catalog prices over the vocabIds that resolve, silently treating an
absent id as contributing 0 — it does not fail; it agrees with the
spec-modelled `ReferenceError` version exactly when every id resolves. -/
theorem bundle_price_skips_missing_ids :
    (∀ (vs : List VocabEntry) (ids : List String),
      totalVocabPrice vs ids =
        (ids.map (fun vid =>
          match vs.find? (fun v => v.id == vid) with
          | some v => v.price
          | none => 0)).sum) ∧
    (∀ (vs : List VocabEntry) (ids : List String),
      (∀ vid ∈ ids, (vs.find? (fun v => v.id == vid)).isSome) →
      computeBundlePriceSpec vs ids = .ok (totalVocabPrice vs ids)) :=
  ⟨totalVocabPrice_eq_sum, computeBundlePriceSpec_ok⟩

/-- C4 counterexample: with the shipped catalog and the id list
`["va1", "zz"]`, the implemented bundle price is 10 — the absent id `zz`
is silently skipped — while the spec demands a `ReferenceError`
failure. -/
theorem bundle_price_missing_id_no_error :
    totalVocabPrice round1Config.vocabularies ["va1", "zz"] = 10 ∧
    (round1Config.vocabularies.find? (fun v => v.id == "zz")).isNone ∧
    computeBundlePriceSpec round1Config.vocabularies ["va1", "zz"] =
      .error "ReferenceError: zz" := by
  refine ⟨?_, by decide, by rfl⟩
  simp +decide [totalVocabPrice, round1Config, List.find?]

/-- C4 witness: the agreement part of `bundle_price_skips_missing_ids`
on a fully resolvable id list. -/
theorem bundle_price_skips_missing_ids_witness :
    computeBundlePriceSpec round1Config.vocabularies ["va1", "va2"] =
      .ok (totalVocabPrice round1Config.vocabularies ["va1", "va2"]) :=
  bundle_price_skips_missing_ids.2 round1Config.vocabularies ["va1", "va2"]
    (by decide)

/-- C5 (amended).  The story content price is
`bundlePrice * (contentLicenseRate - 1)` in all cases, hence nonnegative
whenever `bundlePrice ≥ 0` and `contentLicenseRate ≥ 1`; for rates below
1 the value is negative — the source performs no clamping. -/
theorem content_price_formula_and_floor (bundlePrice rate : Money) :
    computeStoryContentPrice bundlePrice rate = bundlePrice * (rate - 1) ∧
    (0 ≤ bundlePrice → 1 ≤ rate → 0 ≤ computeStoryContentPrice bundlePrice rate) := by
  refine ⟨rfl, fun hb hr => ?_⟩
  have : (0 : ℚ) ≤ rate - 1 := by linarith
  simpa [computeStoryContentPrice] using mul_nonneg hb this

/-- C5 counterexample: for bundle price 20 and rate 1/2 the computed
content price is -10, strictly negative — it is not clamped to 0 as the
claim states. -/
theorem content_price_not_clamped :
    computeStoryContentPrice 20 (1 / 2) = -10 ∧
    computeStoryContentPrice 20 (1 / 2) < 0 := by
  constructor <;> norm_num [computeStoryContentPrice]

/-- C5 witness: `content_price_formula_and_floor` at bundle price 20 and
rate 2. -/
theorem content_price_floor_witness :
    computeStoryContentPrice 20 2 = 20 * (2 - 1) ∧
    (0 ≤ (20 : Money) → 1 ≤ (2 : Money) → 0 ≤ computeStoryContentPrice 20 2) :=
  content_price_formula_and_floor 20 2

/-- C9 (amended).  A participant record created lazily on first access is
`create_player pid` with balance the hard-coded constant 100; this
coincides with `RoundConfig.initialBalance` only because the shipped
round-1 configuration sets `initial_balance = 100` — the creation code
never reads the configuration. -/
theorem lazy_player_balance_hardcoded (players : List Player) (pid : String)
    (h : ∀ p ∈ players, p.player_id ≠ pid) :
    (get_player_info players pid).1.total_earnings = 100 ∧
    (get_player_info players pid).1.total_earnings =
      round1Config.initial_balance ∧
    (get_player_info players pid).2 = players ++ [create_player pid] := by
  have hfind : players.find? (fun p => p.player_id == pid) = none := by
    rw [List.find?_eq_none]
    intro p hp
    simpa using h p hp
  simp [get_player_info, hfind, create_player, round1Config]

/-- C9 counterexample: a configuration with `initial_balance = 200`
leaves the lazily created player at balance 100 — the claimed equality
with the current round configuration fails. -/
theorem player_balance_ignores_config :
    (get_player_info [] "p9").1.total_earnings = 100 ∧
    ({ round1Config with initial_balance := 200 } : RoundConfig).initial_balance
      = 200 ∧
    (get_player_info [] "p9").1.total_earnings ≠
      ({ round1Config with initial_balance := 200 } : RoundConfig).initial_balance := by
  refine ⟨rfl, rfl, by decide⟩

/-- C9 witness: `lazy_player_balance_hardcoded` on the empty player
table. -/
theorem lazy_player_balance_witness :
    (get_player_info [] "p1").1.total_earnings = 100 ∧
    (get_player_info [] "p1").1.total_earnings = round1Config.initial_balance ∧
    (get_player_info [] "p1").2 = [] ++ [create_player "p1"] :=
  lazy_player_balance_hardcoded [] "p1" (by decide)

/-- C6.  When the sentences of a story are in bijection with the owned
words — every sentence matching exactly one owned word, the matched words
pairwise distinct, as many sentences as owned words — the validator
accepts and returns the complete sentence-index-to-word map, covering
every owned word. -/
theorem validator_bijection_accepts (content : String) (owned ws : List String)
    (hmap : (splitSentences content).map (fun s => sentenceMatches owned s) =
      ws.map (fun w => [w]))
    (hlen : ws.length = owned.length)
    (hnd : ws.Nodup) :
    (validate_story content owned).valid = true ∧
    (validate_story content owned).matchesMap = List.enumFrom 0 ws ∧
    ∀ w ∈ owned, ∃ i, (i, w) ∈ (validate_story content owned).matchesMap := by
  have hok := checkSentences_ok_of owned (splitSentences content) ws 0 [] []
    hmap (by simpa using hnd)
  have hslen : (splitSentences content).length = ws.length := by
    have h := congrArg List.length hmap
    simpa using h
  have hsub : ∀ w ∈ ws, w ∈ owned := map_singletons_subset owned _ ws hmap
  have hperm : ws.Perm owned :=
    (List.subperm_of_subset hnd hsub).perm_of_length_le (le_of_eq hlen.symm)
  have hmem : ∀ w ∈ owned, w ∈ ws := fun w hw => hperm.mem_iff.mpr hw
  have hfilter : owned.filter (fun w => !memB w ws) = [] := by
    apply List.filter_eq_nil_iff.mpr
    intro w hw
    simp [memB_iff, hmem w hw]
  have hcond : (splitSentences content).length = owned.length := by
    rw [hslen, hlen]
  have houtcome :
      validateOutcome content owned = .passed (List.enumFrom 0 ws) := by
    simp only [validateOutcome, hok]
    simp [hcond, hfilter]
  have hvalid : validate_story content owned =
      ⟨true, msgOf (.passed (List.enumFrom 0 ws)), List.enumFrom 0 ws⟩ := by
    unfold validate_story
    rw [houtcome]
  refine ⟨by rw [hvalid], by rw [hvalid], ?_⟩
  intro w hw
  obtain ⟨i, hi⟩ := mem_enumFrom_of_mem ws 0 (hmem w hw)
  exact ⟨i, by rw [hvalid]; exact hi⟩

/-- C6 witness: `validator_bijection_accepts` on a two-sentence story
with owned words `alpha` and `beta`. -/
theorem validator_bijection_witness :
    (validate_story "Great alpha leads. Beta follows." ["alpha", "beta"]).valid
      = true ∧
    (validate_story "Great alpha leads. Beta follows."
      ["alpha", "beta"]).matchesMap = List.enumFrom 0 ["alpha", "beta"] :=
  ⟨(validator_bijection_accepts "Great alpha leads. Beta follows."
      ["alpha", "beta"] ["alpha", "beta"] (by decide) (by decide) (by decide)).1,
   (validator_bijection_accepts "Great alpha leads. Beta follows."
      ["alpha", "beta"] ["alpha", "beta"] (by decide) (by decide)
      (by decide)).2.1⟩

/-- C7.  A sentence containing none of the owned words makes the
validator reject, wherever it stands; and when every sentence before it
matches exactly one owned word (pairwise distinct), the reported error is
exactly the does-not-contain message of that earliest failing sentence —
the loop short-circuits in sentence order. -/
theorem validator_rejects_empty_match (content : String) (owned : List String) :
    ((∃ s ∈ splitSentences content, sentenceMatches owned s = []) →
      (validate_story content owned).valid = false) ∧
    (∀ (pre ws : List String) (s : String) (post : List String),
      splitSentences content = pre ++ s :: post →
      pre.map (fun t => sentenceMatches owned t) = ws.map (fun w => [w]) →
      ws.Nodup →
      sentenceMatches owned s = [] →
      (validate_story content owned).valid = false ∧
      (validate_story content owned).message =
        "Sentence " ++ toString (pre.length + 1) ++
          " does not contain any purchased words or phrases.") := by
  constructor
  · rintro ⟨s, hsmem, hs⟩
    cases hb : (validate_story content owned).valid with
    | false => rfl
    | true =>
      obtain ⟨acc, hpass⟩ := (valid_true_iff content owned).mp hb
      cases hch : checkSentences owned (splitSentences content) 0 [] [] with
      | error o =>
        have hform := checkSentences_error_shape owned _ 0 [] [] o hch
        have ho : validateOutcome content owned = o := by
          simp only [validateOutcome, hch]
        rw [ho] at hpass
        subst hpass
        simp [perSentenceOutcome] at hform
      | ok p =>
        obtain ⟨u, a⟩ := p
        obtain ⟨-, -, -, hne⟩ := checkSentences_ok_inv owned _ 0 [] [] u a hch
        exact absurd hs (hne s hsmem)
  · intro pre ws s post hsplit hpre hnd hs
    have herr := checkSentences_first_noMatch owned pre ws s post 0 [] []
      hpre (by simpa using hnd) hs
    have houtcome : validateOutcome content owned =
        .noMatch (0 + pre.length) := by
      simp only [validateOutcome, hsplit, herr]
    have hvalid : validate_story content owned =
        ⟨false, msgOf (.noMatch (0 + pre.length)), []⟩ := by
      unfold validate_story
      rw [houtcome]
    refine ⟨by rw [hvalid], ?_⟩
    rw [hvalid]
    simp [msgOf]

/-- C7 witness: `validator_rejects_empty_match` on a story whose second
sentence matches nothing. -/
theorem validator_empty_match_witness :
    (validate_story "The alpha wolf. Nothing here." ["alpha"]).valid = false ∧
    (validate_story "The alpha wolf. Nothing here." ["alpha"]).message =
      "Sentence 2 does not contain any purchased words or phrases." := by
  have h := (validator_rejects_empty_match "The alpha wolf. Nothing here."
    ["alpha"]).2 ["The alpha wolf"] ["alpha"] "Nothing here" []
    (by decide) (by decide) (by decide) (by decide)
  exact ⟨h.1, h.2.trans (by decide)⟩

/-- C10.  The sentences-in-excess branch of the count check is dead code:
every sentence that survives the per-sentence loop consumes a distinct
owned word, so at the count check the sentence count never exceeds the
owned-word count and `validateOutcome` is never the `tooMany` outcome. -/
theorem too_many_sentences_unreachable (content : String) (owned : List String) :
    isTooManyOutcome (validateOutcome content owned) = false := by
  cases hch : checkSentences owned (splitSentences content) 0 [] [] with
  | error o =>
    have hshape := checkSentences_error_shape owned _ 0 [] [] o hch
    have ho : validateOutcome content owned = o := by
      simp only [validateOutcome, hch]
    rw [ho]
    cases o <;> simp_all [perSentenceOutcome, isTooManyOutcome]
  | ok p =>
    obtain ⟨u, a⟩ := p
    obtain ⟨hlen, hnd, hsub, -⟩ := checkSentences_ok_inv owned _ 0 [] [] u a hch
    have hnd2 : u.Nodup := hnd List.nodup_nil
    have hsub2 : ∀ w ∈ u, w ∈ owned := by
      intro w hw
      rcases hsub w hw with h | h
      · exact absurd h (List.not_mem_nil w)
      · exact h
    have hle : u.length ≤ owned.length :=
      (List.subperm_of_subset hnd2 hsub2).length_le
    have hsle : (splitSentences content).length ≤ owned.length := by
      simp only [List.length_nil, Nat.zero_add] at hlen
      omega
    simp only [validateOutcome, hch]
    by_cases hcond : (splitSentences content).length = owned.length
    · simp only [hcond, ne_eq, not_true_eq_false, if_false]
      split <;> rfl
    · have hlt : (splitSentences content).length < owned.length :=
        lt_of_le_of_ne hsle hcond
      simp [hcond, hlt, isTooManyOutcome]

theorem markCreationsInactive_some (db : List Asset) :
    ∀ (ids : List ℕ) (db2 : List Asset),
      markCreationsInactive db ids = some db2 → ids = [] ∧ db2 = db
  | [], db2, h => by
    simp only [markCreationsInactive, Option.some.injEq] at h
    exact ⟨rfl, h.symm⟩
  | id :: rest, db2, h => by
    have hnone : update_asset_status_checked db id "inactive" = none := by
      simp [update_asset_status_checked, memB, statusEnum]
    simp only [markCreationsInactive, hnone] at h
    exact absurd h (by simp)

theorem processTxn_skip (cfg : RoundConfig) (pid : String) (rid : ℕ)
    (ex : ExistingSets) (s : SyncSt) (t : Txn)
    (h : txnSkipped cfg ex t = true) :
    processTxn cfg pid rid ex s t = some (s, false) := by
  cases t with
  | purchase_story cid sid =>
    cases hc : cfg.combinations.find? (fun c => c.id == cid) with
    | none => simp only [processTxn, hc]
    | some combo =>
      cases hst : combo.stories.find? (fun st => st.id == sid) with
      | none => simp only [processTxn, hc, hst]
      | some story =>
        have h2 : (story.content == "" ||
            memB story.content ex.story_contents) = true := by
          simpa only [txnSkipped, hc, hst] using h
        simp only [processTxn, hc, hst]
        by_cases hce : story.content = ""
        · simp [hce]
        · have hmem : memB story.content ex.story_contents = true := by
            rw [Bool.or_eq_true] at h2
            rcases h2 with h3 | h3
            · exact absurd (by simpa using h3) hce
            · exact h3
          simp [hce, hmem]
  | purchase_combination cid =>
    cases hc : cfg.combinations.find? (fun c => c.id == cid) with
    | none => simp only [processTxn, hc]
    | some combo =>
      have h2 : memB (sortIds combo.vocab_ids) ex.vocab_combos = true := by
        simpa only [txnSkipped, hc] using h
      simp [processTxn, hc, h2]
  | draw_word vid =>
    have h2 : (vid == "" || memB vid ex.vocab_ids ||
        (cfg.vocabularies.find? (fun v => v.id == vid)).isNone) = true := by
      simpa only [txnSkipped] using h
    simp only [processTxn]
    by_cases hv : vid = ""
    · simp [hv]
    · by_cases hm : memB vid ex.vocab_ids = true
      · simp [hv, hm]
      · have hnone : (cfg.vocabularies.find? (fun v => v.id == vid)).isNone = true := by
          rw [Bool.or_eq_true, Bool.or_eq_true] at h2
          rcases h2 with (h4 | h4) | h3
          · exact absurd (by simpa using h4) hv
          · exact absurd h4 hm
          · exact h3
        cases hf : cfg.vocabularies.find? (fun v => v.id == vid) with
        | none => simp [hv, hm, hf]
        | some v => rw [hf] at hnone; simp at hnone
  | save_draft content vids =>
    have h2 : content = "" := by simpa [txnSkipped] using h
    simp [processTxn, h2]
  | submit_story content vids isUp =>
    have h2 : content = "" := by simpa [txnSkipped] using h
    simp [processTxn, h2]

theorem processTxn_not_skip (cfg : RoundConfig) (pid : String) (rid : ℕ)
    (ex : ExistingSets) (s : SyncSt) (t : Txn)
    (h : txnSkipped cfg ex t = false) :
    processTxn cfg pid rid ex s t = none ∨
    ∃ l, processTxn cfg pid rid ex s t =
      some (⟨s.db ++ l, s.nextId + 1⟩, true) := by
  cases t with
  | purchase_story cid sid =>
    cases hc : cfg.combinations.find? (fun c => c.id == cid) with
    | none => simp [txnSkipped, hc] at h
    | some combo =>
      cases hst : combo.stories.find? (fun st => st.id == sid) with
      | none => simp [txnSkipped, hc, hst] at h
      | some story =>
        have h2 : (story.content == "" ||
            memB story.content ex.story_contents) = false := by
          simpa only [txnSkipped, hc, hst] using h
        obtain ⟨h3, h4⟩ := Bool.or_eq_false_iff.mp h2
        have h3n : story.content ≠ "" := by simpa using h3
        right
        refine ⟨[⟨s.nextId, pid, rid, "story_template", story.content,
          "active", combo.vocab_ids⟩], ?_⟩
        simp [processTxn, hc, hst, h3, h3n, h4, createInto, create_asset]
  | purchase_combination cid =>
    cases hc : cfg.combinations.find? (fun c => c.id == cid) with
    | none => simp [txnSkipped, hc] at h
    | some combo =>
      have h2 : memB (sortIds combo.vocab_ids) ex.vocab_combos = false := by
        simpa only [txnSkipped, hc] using h
      right
      refine ⟨[⟨s.nextId, pid, rid, "vocabulary", "", "active",
        combo.vocab_ids⟩], ?_⟩
      simp [processTxn, hc, h2, createInto, create_asset]
  | draw_word vid =>
    have h2 : (vid == "" || memB vid ex.vocab_ids ||
        (cfg.vocabularies.find? (fun v => v.id == vid)).isNone) = false := by
      simpa only [txnSkipped] using h
    rw [Bool.or_eq_false_iff, Bool.or_eq_false_iff] at h2
    obtain ⟨⟨h5, h6⟩, h4⟩ := h2
    cases hf : cfg.vocabularies.find? (fun v => v.id == vid) with
    | none => rw [hf] at h4; simp at h4
    | some v =>
      have h5n : vid ≠ "" := by simpa using h5
      right
      refine ⟨[⟨s.nextId, pid, rid, "vocabulary_draw",
        "Drawn vocabulary: " ++ v.word, "active", [vid]⟩], ?_⟩
      simp [processTxn, h5, h5n, h6, hf, createInto, create_asset]
  | save_draft content vids =>
    have h2 : (content == "") = false := h
    have h2n : content ≠ "" := by simpa using h2
    right
    refine ⟨[⟨s.nextId, pid, rid, "story_draft", content, "active", vids⟩], ?_⟩
    simp [processTxn, h2, h2n, createInto, create_asset]
  | submit_story content vids isUp =>
    have h2 : (content == "") = false := h
    have h2n : content ≠ "" := by simpa using h2
    cases isUp with
    | false =>
      right
      refine ⟨[⟨s.nextId, pid, rid, "user_creation", content, "active",
        vids⟩], ?_⟩
      simp [processTxn, h2, h2n, createInto, create_asset]
    | true =>
      cases hm : markCreationsInactive s.db ex.creation_ids with
      | none =>
        left
        simp [processTxn, h2, h2n, hm]
      | some db2 =>
        obtain ⟨-, hdb⟩ := markCreationsInactive_some s.db ex.creation_ids db2 hm
        right
        refine ⟨[⟨s.nextId, pid, rid, "user_creation", content, "active",
          vids⟩], ?_⟩
        simp [processTxn, h2, h2n, hm, hdb, createInto, create_asset]

theorem processTxn_inv (cfg : RoundConfig) (pid : String) (rid : ℕ)
    (ex : ExistingSets) (s : SyncSt) (t : Txn) (s2 : SyncSt) (f : Bool)
    (h : processTxn cfg pid rid ex s t = some (s2, f)) :
    (∃ l, s2.db = s.db ++ l) ∧ f = !txnSkipped cfg ex t ∧
      (f = false → s2 = s) := by
  by_cases hsk : txnSkipped cfg ex t = true
  · have h2 := (processTxn_skip cfg pid rid ex s t hsk).symm.trans h
    simp only [Option.some.injEq, Prod.mk.injEq] at h2
    obtain ⟨h3, h4⟩ := h2
    refine ⟨⟨[], by rw [← h3]; simp⟩, by rw [hsk, ← h4]; rfl, fun _ => h3.symm⟩
  · have hsk2 : txnSkipped cfg ex t = false := by
      cases hval : txnSkipped cfg ex t
      · rfl
      · exact absurd hval hsk
    rcases processTxn_not_skip cfg pid rid ex s t hsk2 with h2 | ⟨l, h2⟩
    · rw [h2] at h; exact absurd h (by simp)
    · have h3 := h2.symm.trans h
      simp only [Option.some.injEq, Prod.mk.injEq] at h3
      obtain ⟨h4, h5⟩ := h3
      refine ⟨⟨l, by rw [← h4]⟩, by rw [hsk2, ← h5]; rfl, fun hf => ?_⟩
      rw [← h5] at hf
      exact absurd hf (by simp)

theorem syncLoop_inv (cfg : RoundConfig) (pid : String) (rid : ℕ)
    (ex : ExistingSets) :
    ∀ (q : List Txn) (s s' : SyncSt) (kept : List Txn) (ok : Bool),
      syncLoop cfg pid rid ex s q = (s', kept, ok) →
      (∃ l, s'.db = s.db ++ l) ∧
      (ok = true → ∀ t ∈ kept, txnSkipped cfg ex t = true)
  | [], s, s', kept, ok, h => by
    simp only [syncLoop, Prod.mk.injEq] at h
    obtain ⟨h1, h2, h3⟩ := h
    refine ⟨⟨[], by rw [← h1]; simp⟩, fun _ t ht => ?_⟩
    rw [← h2] at ht
    exact absurd ht (List.not_mem_nil t)
  | t :: rest, s, s', kept, ok, h => by
    cases hp : processTxn cfg pid rid ex s t with
    | none =>
      simp only [syncLoop, hp, Prod.mk.injEq] at h
      obtain ⟨h1, h2, h3⟩ := h
      refine ⟨⟨[], by rw [← h1]; simp⟩, fun hok => ?_⟩
      rw [← h3] at hok
      exact absurd hok (by simp)
    | some p =>
      obtain ⟨s2, f⟩ := p
      cases hrec : syncLoop cfg pid rid ex s2 rest with
      | mk s3 r =>
        obtain ⟨kept2, ok2⟩ := r
        simp only [syncLoop, hp, hrec, Prod.mk.injEq] at h
        obtain ⟨h1, h2, h3⟩ := h
        obtain ⟨l1, hdb1⟩ := (processTxn_inv cfg pid rid ex s t s2 f hp).1
        obtain ⟨⟨l2, hdb2⟩, hkept⟩ :=
          syncLoop_inv cfg pid rid ex rest s2 s3 kept2 ok2 hrec
        constructor
        · exact ⟨l1 ++ l2, by rw [← h1, hdb2, hdb1, List.append_assoc]⟩
        · intro hok t' ht'
          have hok2 : ok2 = true := h3.trans hok
          rw [← h2] at ht'
          cases f with
          | true => exact hkept hok2 t' (by simpa using ht')
          | false =>
            rcases List.mem_cons.mp (by simpa using ht') with h5 | h5
            · subst h5
              have hflag := (processTxn_inv cfg pid rid ex s t' s2 false hp).2.1
              cases hskv : txnSkipped cfg ex t' with
              | true => rfl
              | false => rw [hskv] at hflag; simp at hflag
            · exact hkept hok2 t' h5

theorem syncLoop_all_skipped (cfg : RoundConfig) (pid : String) (rid : ℕ)
    (ex : ExistingSets) :
    ∀ (q : List Txn) (s : SyncSt),
      (∀ t ∈ q, txnSkipped cfg ex t = true) →
      syncLoop cfg pid rid ex s q = (s, q, true)
  | [], s, _ => by simp [syncLoop]
  | t :: rest, s, h => by
    have hskip := h t (List.mem_cons_self t rest)
    have hrest := syncLoop_all_skipped cfg pid rid ex rest s
      (fun t' ht' => h t' (List.mem_cons_of_mem t ht'))
    simp only [syncLoop, processTxn_skip cfg pid rid ex s t hskip, hrest]
    simp

theorem get_player_vocabularies_append (db l : List Asset) :
    get_player_vocabularies (db ++ l) =
      get_player_vocabularies db ++ get_player_vocabularies l := by
  simp [get_player_vocabularies]

theorem mkExisting_append (db l : List Asset) :
    exSubset (mkExisting db) (mkExisting (db ++ l)) := by
  refine ⟨?_, ?_, ?_⟩
  · simp only [mkExisting, List.filter_append, List.map_append]
    exact List.subset_append_left _ _
  · simp only [mkExisting, List.filter_append, List.map_append]
    exact List.subset_append_left _ _
  · simp only [mkExisting, get_player_vocabularies_append]
    exact List.subset_append_left _ _

theorem txnSkipped_mono (cfg : RoundConfig) (e1 e2 : ExistingSets)
    (hsub : exSubset e1 e2) (t : Txn) (h : txnSkipped cfg e1 t = true) :
    txnSkipped cfg e2 t = true := by
  obtain ⟨hs1, hs2, hs3⟩ := hsub
  cases t with
  | purchase_story cid sid =>
    cases hc : cfg.combinations.find? (fun c => c.id == cid) with
    | none => simp [txnSkipped, hc]
    | some combo =>
      cases hst : combo.stories.find? (fun st => st.id == sid) with
      | none => simp [txnSkipped, hc, hst]
      | some story =>
        have h2 : (story.content == "" ||
            memB story.content e1.story_contents) = true := by
          simpa only [txnSkipped, hc, hst] using h
        simp only [txnSkipped, hc, hst]
        rw [Bool.or_eq_true] at h2 ⊢
        rcases h2 with h3 | h3
        · exact Or.inl h3
        · exact Or.inr ((memB_iff _ _).mpr (hs1 ((memB_iff _ _).mp h3)))
  | purchase_combination cid =>
    cases hc : cfg.combinations.find? (fun c => c.id == cid) with
    | none => simp [txnSkipped, hc]
    | some combo =>
      have h2 : memB (sortIds combo.vocab_ids) e1.vocab_combos = true := by
        simpa only [txnSkipped, hc] using h
      have h3 : memB (sortIds combo.vocab_ids) e2.vocab_combos = true :=
        (memB_iff _ _).mpr (hs2 ((memB_iff _ _).mp h2))
      simp [txnSkipped, hc, h3]
  | draw_word vid =>
    have h2 : (vid == "" || memB vid e1.vocab_ids ||
        (cfg.vocabularies.find? (fun v => v.id == vid)).isNone) = true := by
      simpa only [txnSkipped] using h
    simp only [txnSkipped]
    rw [Bool.or_eq_true, Bool.or_eq_true] at h2 ⊢
    rcases h2 with (h3 | h3) | h3
    · exact Or.inl (Or.inl h3)
    · exact Or.inl (Or.inr ((memB_iff _ _).mpr (hs3 ((memB_iff _ _).mp h3))))
    · exact Or.inr h3
  | save_draft content vids => exact h
  | submit_story content vids isUp => exact h

theorem sync_to_database_ok (cfg : RoundConfig) (pid : String) (rid : ℕ)
    (s : SyncSt) (q : List Txn) (s1 : SyncSt) (q1 : List Txn)
    (h : sync_to_database cfg pid rid s q = (s1, q1, true)) :
    syncLoop cfg pid rid (mkExisting s.db) s q = (s1, q1, true) := by
  unfold sync_to_database at h
  cases hl : syncLoop cfg pid rid (mkExisting s.db) s q with
  | mk s2 r =>
    obtain ⟨kept, ok⟩ := r
    cases ok with
    | true =>
      simp only [hl, Prod.mk.injEq] at h
      rw [h.1, h.2.1]
    | false =>
      simp only [hl, Prod.mk.injEq] at h
      exact absurd h.2.2 (by simp)

theorem syncLoopAborted_db (cfg : RoundConfig) (pid : String) (rid : ℕ)
    (ex : ExistingSets) :
    ∀ (q : List Txn) (s : SyncSt) (k : ℕ),
      ∃ l, (syncLoopAborted cfg pid rid ex s q k).db = s.db ++ l
  | [], s, k => by cases k <;> exact ⟨[], by simp [syncLoopAborted]⟩
  | t :: rest, s, 0 => ⟨[], by simp [syncLoopAborted]⟩
  | t :: rest, s, k + 1 => by
    cases hp : processTxn cfg pid rid ex s t with
    | none => exact ⟨[], by simp [syncLoopAborted, hp]⟩
    | some p =>
      obtain ⟨s2, f⟩ := p
      obtain ⟨l1, hdb1⟩ := (processTxn_inv cfg pid rid ex s t s2 f hp).1
      obtain ⟨l2, hdb2⟩ := syncLoopAborted_db cfg pid rid ex rest s2 k
      exact ⟨l1 ++ l2,
        by simp only [syncLoopAborted, hp, hdb2, hdb1, List.append_assoc]⟩

/-- C1 (amended).  When a flush succeeds, flushing again with the
resulting pending queue and no new transactions is a no-op: the store,
the id counter and the queue are all unchanged, so no duplicate Assets
arise from the double flush. -/
theorem flush_twice_idempotent_of_success (cfg : RoundConfig) (pid : String)
    (rid : ℕ) (s : SyncSt) (q : List Txn) (s1 : SyncSt) (q1 : List Txn)
    (h : sync_to_database cfg pid rid s q = (s1, q1, true)) :
    sync_to_database cfg pid rid s1 q1 = (s1, q1, true) := by
  have hloop := sync_to_database_ok cfg pid rid s q s1 q1 h
  obtain ⟨⟨l, hdb⟩, hkept⟩ :=
    syncLoop_inv cfg pid rid (mkExisting s.db) q s s1 q1 true hloop
  have hmono : exSubset (mkExisting s.db) (mkExisting s1.db) := by
    rw [hdb]
    exact mkExisting_append s.db l
  have hsk1 : ∀ t ∈ q1, txnSkipped cfg (mkExisting s1.db) t = true :=
    fun t ht => txnSkipped_mono cfg _ _ hmono t (hkept rfl t ht)
  have hloop2 := syncLoop_all_skipped cfg pid rid (mkExisting s1.db) q1 s1 hsk1
  unfold sync_to_database
  simp only [hloop2]

/-- C1 counterexample: a pending `submitStory` transaction whose content
equals the content of a `userCreation` Asset already in the durable
snapshot — the dedup key of the claim — is persisted again by the flush
(the store then holds two such Assets), not skipped. -/
theorem submitStory_not_deduplicated :
    (([⟨0, "p1", 1, "user_creation", "My tale.", "active", []⟩] :
        List Asset).filter
      (fun a => a.asset_type == "user_creation" && a.content == "My tale.")).length
      = 1 ∧
    ((sync_to_database round1Config "p1" 1
        ⟨[⟨0, "p1", 1, "user_creation", "My tale.", "active", []⟩], 1⟩
        [Txn.submit_story "My tale." [] false]).1.db.filter
      (fun a => a.asset_type == "user_creation" && a.content == "My tale.")).length
      = 2 ∧
    (sync_to_database round1Config "p1" 1
        ⟨[⟨0, "p1", 1, "user_creation", "My tale.", "active", []⟩], 1⟩
        [Txn.submit_story "My tale." [] false]).2.1 = [] := by
  decide

/-- C1 witness: `flush_twice_idempotent_of_success` after a successful
flush of one bundle purchase against the shipped configuration. -/
theorem flush_twice_witness :
    sync_to_database round1Config "p1" 1
      ⟨[⟨0, "p1", 1, "vocabulary", "", "active", ["va1", "va2"]⟩], 1⟩ [] =
    (⟨[⟨0, "p1", 1, "vocabulary", "", "active", ["va1", "va2"]⟩], 1⟩, [],
      true) :=
  flush_twice_idempotent_of_success round1Config "p1" 1 ⟨[], 0⟩
    [Txn.purchase_combination "ca1"]
    ⟨[⟨0, "p1", 1, "vocabulary", "", "active", ["va1", "va2"]⟩], 1⟩ []
    (by decide)

/-- C2 (code defect).  The flush logic marks the prior `userCreation`
Asset `inactive` before persisting a new submission, but `inactive` is
not among the members of the `status` Enum of `user_assets`
(`models.py` line 80, `init_db.py` line 50), so the write is rejected:
the second submit-and-flush for the participant fails, the prior creation
keeps status `active` and the new creation is never persisted, while the
pending entries stay queued. -/
theorem inactive_status_rejected_by_schema :
    memB "inactive" statusEnum = false ∧
    (submitAndFlush round1Config "p1" 1
      (submitAndFlush round1Config "p1" 1 ⟨[], [], [], 0⟩
        "A first tale." ["va1"]).1
      "A second tale." ["va1"]).2 = false ∧
    (((submitAndFlush round1Config "p1" 1
        (submitAndFlush round1Config "p1" 1 ⟨[], [], [], 0⟩
          "A first tale." ["va1"]).1
        "A second tale." ["va1"]).1.db.filter
      (fun a => a.asset_type == "user_creation")).map
      (fun a => (a.content, a.status))) = [("A first tale.", "active")] ∧
    (submitAndFlush round1Config "p1" 1
      (submitAndFlush round1Config "p1" 1 ⟨[], [], [], 0⟩
        "A first tale." ["va1"]).1
      "A second tale." ["va1"]).1.queue =
      [Txn.save_draft "A second tale." ["va1"],
       Txn.submit_story "A second tale." ["va1"] true] := by
  decide

/-- C8 (amended).  When a flush fails unexpectedly part-way through the
queue, the remaining entries are aborted and the store keeps every Asset
it already held plus those persisted before the failure — but no entry at
all is removed from the pending queue, processed ones included: the whole
queue is retained for the retry, so no unprocessed entry is ever lost. -/
theorem aborted_flush_keeps_queue (cfg : RoundConfig) (pid : String)
    (rid : ℕ) (s : SyncSt) (q : List Txn) (k : ℕ) :
    (sync_aborted cfg pid rid s q k).2 = q ∧
    ∃ l, (sync_aborted cfg pid rid s q k).1.db = s.db ++ l :=
  ⟨rfl, syncLoopAborted_db cfg pid rid (mkExisting s.db) q s k⟩

/-- C8 counterexample: a flush of two drafts failing on the second one
persists the first draft yet leaves its entry in the pending queue — the
claim that already-processed entries stay removed fails. -/
theorem aborted_flush_processed_entry_still_queued :
    (sync_aborted round1Config "p1" 1 ⟨[], 0⟩
      [Txn.save_draft "first draft" [], Txn.save_draft "second draft" []]
      1).1.db.length = 1 ∧
    (sync_aborted round1Config "p1" 1 ⟨[], 0⟩
      [Txn.save_draft "first draft" [], Txn.save_draft "second draft" []]
      1).2 =
      [Txn.save_draft "first draft" [], Txn.save_draft "second draft" []] ∧
    memB (Txn.save_draft "first draft" [])
      (sync_aborted round1Config "p1" 1 ⟨[], 0⟩
        [Txn.save_draft "first draft" [], Txn.save_draft "second draft" []]
        1).2 = true := by
  decide

end Novelty
